import Mathlib

/-!
Verification development for the flashbots-failed-tx watcher (`main.go`).

The program scans Ethereum blocks for transactions that pay a zero gas
price, carry a non-empty payload and whose receipt reports failure.  Each
such transaction is classified by an external bundle-membership oracle
(`IsFlashbotsTx`) and recorded in a bounded global history
(`FailedTxHistory`, capacity 100, FIFO eviction).  In live mode (`watch`)
fetched blocks wait in a global `BlockBacklog` until the external
flashbots API (`GetFlashbotsBlock`) confirms it has processed their
height.  In batch mode (`checkBlockRange`) a producer feeds blocks of a
height range through a channel to a single consumer goroutine, with a
mutex used as a completion barrier.

The definitions below are a shallow embedding of that code:

* hashes, addresses and heights are modelled as `Nat`
  (`header.Number.Int64()`, `b.Block.Number().Uint64()` — block numbers
  are non-negative and nowhere near the 64-bit overflow boundary);
* the `*types.Transaction` pointer field `To` becomes `Option Nat`
  (`none` = nil pointer), and the consequence of dereferencing it
  (`tx.To().String()` panics) is the explicit outcome
  `ScanResult.panicked` / an `Option`-valued step;
* the receipts map `b.TxReceipts` becomes an association list keyed by
  transaction hash;
* the external queries `IsFlashbotsTx` and `GetFlashbotsBlock` are
  capabilities supplied per call / per head event, returning `none` on
  error (`err != nil`);
* `sender, _ := utils.GetTxSender(tx)` delegates sender recovery, so the
  sender is simply a field of the transaction.
-/

/-- Execution receipt of a transaction; `status = 1` means success
(`receipt.Status == 1` in `checkBlock`). -/
structure Receipt where
  status : Nat
deriving DecidableEq, Repr

/-- A transaction as consumed by `checkBlock`: hash, recovered sender,
recipient (`nil` for contract creation, hence `Option`), gas price and
payload bytes. -/
structure Tx where
  hash : Nat
  sender : Nat
  To : Option Nat
  gasPrice : Nat
  data : List Nat
deriving DecidableEq, Repr

/-- `blockswithtx.BlockWithTxReceipts`: a block (number and ordered
transaction list) together with the receipt map keyed by tx hash. -/
structure BlockWithTxReceipts where
  number : Nat
  transactions : List Tx
  txReceipts : List (Nat × Receipt)
deriving DecidableEq, Repr

/-- The record type appended to the global history (`type FailedTx`). -/
structure FailedTx where
  Hash : Nat
  From : Nat
  To : Nat
  Block : Nat
  IsFlashbots : Bool
deriving DecidableEq, Repr

/-- Outcome of the transaction loop of `checkBlock`:
`completed` — the loop ran through all transactions (the function then
  reaches `delete(BlockBacklog, ...)`);
`aborted` — `IsFlashbotsTx` returned an error and the function hit the
  early `return` (history keeps the records appended before the error);
`panicked` — `tx.To().String()` dereferenced a nil `To` pointer,
  crashing the process. -/
inductive ScanResult where
  | completed (history : List FailedTx)
  | aborted (history : List FailedTx)
  | panicked
deriving DecidableEq, Repr

/-- Lines 175–178 of `main.go`:
`if len(FailedTxHistory) == 100 { FailedTxHistory = FailedTxHistory[1:] }`
followed by `FailedTxHistory = append(FailedTxHistory, failedTx)`. -/
def appendFailedTx (history : List FailedTx) (f : FailedTx) : List FailedTx :=
  (if history.length = 100 then history.drop 1 else history) ++ [f]

/-- The `for _, tx := range b.Block.Transactions()` loop of `checkBlock`,
threading the global `FailedTxHistory` through.  `isFlashbotsTx` is the
external bundle-membership oracle applied to `(b.Block, tx)`, returning
`none` when the query errors. -/
def scanTxs (isFlashbotsTx : Nat → Tx → Option Bool) (b : BlockWithTxReceipts) :
    List Tx → List FailedTx → ScanResult
  | [], history => .completed history
  | tx :: rest, history =>
    match b.txReceipts.lookup tx.hash with
    | none => scanTxs isFlashbotsTx b rest history
    | some receipt =>
      if tx.gasPrice = 0 ∧ tx.data.length > 0 then
        if receipt.status = 1 then
          -- successful tx: informational only, nothing recorded
          scanTxs isFlashbotsTx b rest history
        else
          match isFlashbotsTx b.number tx with
          | none => .aborted history
          | some flag =>
            match tx.To with
            | none => .panicked
            | some toAddr =>
              scanTxs isFlashbotsTx b rest
                (appendFailedTx history
                  ⟨tx.hash, tx.sender, toAddr, b.number, flag⟩)
      else
        scanTxs isFlashbotsTx b rest history

/-- `delete(BlockBacklog, b.Block.Number().Int64())`. -/
def backlogRemove (h : Nat) (m : List (Nat × BlockWithTxReceipts)) :
    List (Nat × BlockWithTxReceipts) :=
  m.filter (fun p => p.1 ≠ h)

/-- `BlockBacklog[height] = b`: Go map assignment, replacing any entry
already stored at that height. -/
def backlogInsert (h : Nat) (b : BlockWithTxReceipts)
    (m : List (Nat × BlockWithTxReceipts)) : List (Nat × BlockWithTxReceipts) :=
  if m.any (fun p => p.1 = h) then
    m.map (fun p => if p.1 = h then (h, b) else p)
  else
    m ++ [(h, b)]

/-- The two global mutable variables of the program:
`var BlockBacklog map[int64]*blockswithtx.BlockWithTxReceipts` and
`var FailedTxHistory []FailedTx`. -/
structure WatchState where
  blockBacklog : List (Nat × BlockWithTxReceipts)
  failedTxHistory : List FailedTx
deriving DecidableEq, Repr

/-- `func checkBlock(b *blockswithtx.BlockWithTxReceipts)` as a state
transformer: `none` means the process panicked (nil `To` dereference).
The backlog entry for the block's own number is deleted only when the
transaction loop completes — the early `return` on an oracle error skips
line 190. -/
def checkBlock (isFlashbotsTx : Nat → Tx → Option Bool)
    (b : BlockWithTxReceipts) (s : WatchState) : Option WatchState :=
  match scanTxs isFlashbotsTx b b.transactions s.failedTxHistory with
  | .completed history => some ⟨backlogRemove b.number s.blockBacklog, history⟩
  | .aborted history => some ⟨s.blockBacklog, history⟩
  | .panicked => none

/-- One delivery on the `headers` channel of `watch`, bundled with the
behaviour of the external collaborators during that cycle:
`header` — `header.Number.Int64()`;
`block` — the result of `GetBlockWithTxReceipts(client, header.Number)`
  (a fetch error is fatal (`utils.Perror`), so events model successful
  fetches);
`latestBlockNumber` — `GetFlashbotsBlock(...).LatestBlockNumber`, or
  `none` when that query returns an error;
`isFlashbotsTx` — the bundle-membership oracle for this cycle. -/
structure HeadEvent where
  header : Nat
  block : BlockWithTxReceipts
  latestBlockNumber : Option Nat
  isFlashbotsTx : Nat → Tx → Option Bool

/-- The `for height, backlogBlock := range BlockBacklog` sweep of
`watch`: every backlogged height `≤ latestBlockNumber` is passed through
`checkBlock`.  The iteration runs over a snapshot of the entries (one of
the unspecified Go map orders); `checkBlock` deletes only the entry it is
currently visiting, so deletions never affect which entries are
visited. -/
def sweep (isFlashbotsTx : Nat → Tx → Option Bool) (latest : Nat) :
    List (Nat × BlockWithTxReceipts) → WatchState → Option WatchState
  | [], s => some s
  | (height, backlogBlock) :: rest, s =>
    if height ≤ latest then
      match checkBlock isFlashbotsTx backlogBlock s with
      | none => none
      | some s' => sweep isFlashbotsTx latest rest s'
    else
      sweep isFlashbotsTx latest rest s

/-- One `case header := <-headers` iteration of the `watch` loop:
fetch (already folded into the event), add to the backlog, query the
flashbots API, and on success sweep the backlog; on error `continue`
without touching the backlog further.  `none` = the process panicked
inside `checkBlock`. -/
def watchStep (e : HeadEvent) (s : WatchState) : Option WatchState :=
  let s1 : WatchState :=
    ⟨backlogInsert e.header e.block s.blockBacklog, s.failedTxHistory⟩
  match e.latestBlockNumber with
  | none => some s1
  | some latest => sweep e.isFlashbotsTx latest s1.blockBacklog s1

/-- Running the `watch` loop over a finite prefix of head events. -/
def watchRun (es : List HeadEvent) (s : WatchState) : Option WatchState :=
  match es with
  | [] => some s
  | e :: rest => (watchStep e s).bind (watchRun rest)

/-- Initial contents of the two globals:
`make(map[...])` and `make([]FailedTx, 0, 100)`. -/
def initialWatchState : WatchState := ⟨[], []⟩

/-- Heights currently pending in a backlog. -/
def backlogKeys (m : List (Nat × BlockWithTxReceipts)) : List Nat :=
  m.map Prod.fst

/-- Well-formedness of the backlog map: as a Go map it has at most one
entry per height, and (because a block fetched for height `h` has number
`h`) each stored block's number is its key. -/
def wfBacklog (m : List (Nat × BlockWithTxReceipts)) : Prop :=
  (backlogKeys m).Nodup ∧ ∀ p ∈ m, p.2.number = p.1

instance (m : List (Nat × BlockWithTxReceipts)) : Decidable (wfBacklog m) := by
  unfold wfBacklog
  infer_instance

/-!
## Batch mode: `checkBlockRange`

The consumer goroutine (lines 74–81) is the only caller of `checkBlock`
and the only writer of `numTx`; its sequential data path is
`consumeBlocks`.  The synchronization skeleton (channel of capacity 100,
`close`, and the mutex used as a completion barrier) is modelled
separately as the interleaving system `rangeScanStep` below.
-/

/-- The body of the consumer goroutine of `checkBlockRange`:
`for b := range blockChan { checkBlock(b); numTx += len(b.Block.Transactions()) }`
over the finite list of blocks delivered on the channel.  `none` means a
`checkBlock` call panicked, killing the process before the remaining
blocks were consumed. -/
def consumeBlocks (isFlashbotsTx : Nat → Tx → Option Bool)
    (delivered : List BlockWithTxReceipts) (s : WatchState) (numTx : Nat) :
    Option (WatchState × Nat) :=
  match delivered with
  | [] => some (s, numTx)
  | b :: rest =>
    match checkBlock isFlashbotsTx b s with
    | none => none
    | some s' => consumeBlocks isFlashbotsTx rest s' (numTx + b.transactions.length)

/-- The blocks of the height range `[startHeight, endHeight]`, fetched by
`blockswithtx.GetBlocksWithTxReceipts` (external collaborator: each
height fetched exactly once; delivery order across its workers is
unspecified and is captured by quantifying over permutations). -/
def rangeBlocks (fetch : Nat → BlockWithTxReceipts)
    (startHeight endHeight : Nat) : List BlockWithTxReceipts :=
  (List.range' startHeight (endHeight + 1 - startHeight)).map fetch

/-- Total number of transactions of the blocks in a height range. -/
def blockRangeSum (fetch : Nat → BlockWithTxReceipts)
    (startHeight endHeight : Nat) : Nat :=
  ((rangeBlocks fetch startHeight endHeight).map
    (fun b => b.transactions.length)).sum

/-- The two threads of `checkBlockRange` that race on the mutex: the
calling thread (lines 66–93) and the consumer goroutine (lines 74–81). -/
inductive RThread where
  | main
  | consumer
deriving DecidableEq, Repr

/-- Program counter of the calling thread:
`producing pending` — inside `GetBlocksWithTxReceipts`, with `pending`
  still to be sent on `blockChan` (a send blocks while the channel holds
  100 items);
`closing` — at `close(blockChan)` (line 87);
`locking` — at `lock.Lock()` (line 88);
`returned` — past line 88: the elapsed time and `numTx` have been read
  and `checkBlockRange` has returned to its caller. -/
inductive MainPC where
  | producing (pending : List BlockWithTxReceipts)
  | closing
  | locking
  | returned
deriving DecidableEq, Repr

/-- Program counter of the consumer goroutine:
`start` — before its `lock.Lock()` (line 75; the goroutine may not have
  been scheduled yet);
`running` — inside `for b := range blockChan`;
`finished` — the channel was closed and drained, the deferred
  `lock.Unlock()` ran and the goroutine exited. -/
inductive ConsPC where
  | start
  | running
  | finished
deriving DecidableEq, Repr

/-- Shared state of `checkBlockRange`: the channel contents, whether it
is closed, the mutex, both program counters, the shared `numTx` counter,
the blocks the consumer has processed so far (each of which it passed to
`checkBlock`), and the `numTx` value the caller observed at return time
(line 92), if it has returned. -/
structure RangeScanState where
  blockChan : List BlockWithTxReceipts
  chanClosed : Bool
  mutexLocked : Bool
  mainPC : MainPC
  consPC : ConsPC
  numTx : Nat
  consumed : List BlockWithTxReceipts
  returnedNumTx : Option Nat
deriving DecidableEq, Repr

/-- One atomic step of the chosen thread; a thread whose next action is
blocked (full channel, held mutex, empty open channel) or that has
terminated leaves the state unchanged. -/
def rangeScanStep (s : RangeScanState) (t : RThread) : RangeScanState :=
  match t with
  | .main =>
    match s.mainPC with
    | .producing (b :: rest) =>
      if s.blockChan.length < 100 then
        { s with blockChan := s.blockChan ++ [b], mainPC := .producing rest }
      else s
    | .producing [] => { s with mainPC := .closing }
    | .closing => { s with chanClosed := true, mainPC := .locking }
    | .locking =>
      if s.mutexLocked then s
      else { s with mutexLocked := true, mainPC := .returned,
                    returnedNumTx := some s.numTx }
    | .returned => s
  | .consumer =>
    match s.consPC with
    | .start =>
      if s.mutexLocked then s
      else { s with mutexLocked := true, consPC := .running }
    | .running =>
      match s.blockChan with
      | b :: rest =>
        { s with blockChan := rest,
                 numTx := s.numTx + b.transactions.length,
                 consumed := s.consumed ++ [b] }
      | [] =>
        if s.chanClosed then
          { s with mutexLocked := false, consPC := .finished }
        else s
    | .finished => s

/-- State at the start of `checkBlockRange`, before either thread moves:
empty open channel, free mutex, `numTx = 0`, and the producer about to
deliver the blocks of the requested range. -/
def initRangeScan (blocks : List BlockWithTxReceipts) : RangeScanState :=
  ⟨[], false, false, .producing blocks, .start, 0, [], none⟩

/-- Run a schedule (an interleaving chosen by the Go runtime). -/
def runSchedule (blocks : List BlockWithTxReceipts) (sched : List RThread) :
    RangeScanState :=
  sched.foldl rangeScanStep (initRangeScan blocks)

/-!
## Helper lemmas
-/

theorem appendFailedTx_length_le (h : List FailedTx) (f : FailedTx)
    (hle : h.length ≤ 100) : (appendFailedTx h f).length ≤ 100 := by
  unfold appendFailedTx
  by_cases hc : h.length = 100
  · simp [hc]
  · simp only [hc, if_false, List.length_append, List.length_singleton]
    omega

theorem foldl_appendFailedTx_length_le (l : List FailedTx) :
    ∀ h : List FailedTx, h.length ≤ 100 →
      (l.foldl appendFailedTx h).length ≤ 100 := by
  induction l with
  | nil => intro h hh; simpa using hh
  | cons f rest ih =>
    intro h hh
    exact ih _ (appendFailedTx_length_le h f hh)

/-- Saved records used in concrete instances. -/
def sampleRecord : FailedTx := ⟨0, 0, 0, 0, false⟩

/-!
## Claim theorems
-/

/-- C1: for every sequence of appends to the failed-transaction history
(starting from the empty history the program initializes), the length of
`FailedTxHistory` never exceeds 100; an append at length 100 removes
exactly the oldest (first) record and keeps all other records in their
original order before inserting the new record at the end, and an append
below capacity keeps every record. -/
theorem failedTxHistory_fifo_bound (appends : List FailedTx) :
    ((appends.foldl appendFailedTx []).length ≤ 100) ∧
    (∀ h f, h.length = 100 → appendFailedTx h f = h.drop 1 ++ [f]) ∧
    (∀ h f, h.length ≠ 100 → appendFailedTx h f = h ++ [f]) := by
  refine ⟨foldl_appendFailedTx_length_le appends [] (by simp), ?_, ?_⟩
  · intro h f hc
    simp [appendFailedTx, hc]
  · intro h f hc
    simp [appendFailedTx, hc]

theorem failedTxHistory_fifo_bound_witness :
    (((List.replicate 101 sampleRecord).foldl appendFailedTx []).length ≤ 100) ∧
    appendFailedTx (List.replicate 100 sampleRecord) sampleRecord =
      (List.replicate 100 sampleRecord).drop 1 ++ [sampleRecord] ∧
    appendFailedTx [sampleRecord] sampleRecord = [sampleRecord] ++ [sampleRecord] :=
  ⟨(failedTxHistory_fifo_bound (List.replicate 101 sampleRecord)).1,
   (failedTxHistory_fifo_bound []).2.1 _ sampleRecord (by simp),
   (failedTxHistory_fifo_bound []).2.2 _ sampleRecord (by simp)⟩

/-- C8: a transaction with a receipt whose status is 1 (success), even
when it pays a zero gas price and carries a non-empty payload, produces
no record: the transaction loop of `checkBlock` continues with the
remaining transactions and an unchanged history. -/
theorem successful_zero_fee_not_recorded
    (isFlashbotsTx : Nat → Tx → Option Bool) (b : BlockWithTxReceipts)
    (tx : Tx) (rest : List Tx) (history : List FailedTx) (r : Receipt)
    (hr : b.txReceipts.lookup tx.hash = some r)
    (hgas : tx.gasPrice = 0) (hdata : tx.data.length > 0)
    (hst : r.status = 1) :
    scanTxs isFlashbotsTx b (tx :: rest) history =
      scanTxs isFlashbotsTx b rest history := by
  simp [scanTxs, hr, hgas, hdata, hst]

def oracleFalse : Nat → Tx → Option Bool := fun _ _ => some false

def txSuccess : Tx := ⟨4, 9, some 8, 0, [1]⟩

def blockSuccess : BlockWithTxReceipts := ⟨3, [txSuccess], [(4, ⟨1⟩)]⟩

theorem successful_zero_fee_not_recorded_witness :
    blockSuccess.txReceipts.lookup txSuccess.hash = some ⟨1⟩ ∧
    txSuccess.gasPrice = 0 ∧ txSuccess.data.length > 0 ∧
    scanTxs oracleFalse blockSuccess [txSuccess] [] =
      scanTxs oracleFalse blockSuccess [] [] :=
  ⟨by decide, by decide, by decide,
   successful_zero_fee_not_recorded oracleFalse blockSuccess txSuccess [] []
     ⟨1⟩ (by decide) (by decide) (by decide) (by decide)⟩

/-- C9: a failing zero-fee transaction with a non-empty payload whose
`To` pointer is nil (contract creation) and whose bundle-membership
query succeeds reaches `tx.To().String()` unguarded: the transaction
loop panics, and `checkBlock` on a block whose transactions begin with
such a transaction crashes the process instead of producing a record or
skipping the transaction. -/
theorem nil_recipient_dereference_panics
    (isFlashbotsTx : Nat → Tx → Option Bool) (b : BlockWithTxReceipts)
    (tx : Tx) (rest : List Tx) (history : List FailedTx) (r : Receipt)
    (a : Bool) (s : WatchState)
    (hr : b.txReceipts.lookup tx.hash = some r)
    (hgas : tx.gasPrice = 0) (hdata : tx.data.length > 0)
    (hst : r.status ≠ 1)
    (horacle : isFlashbotsTx b.number tx = some a)
    (hTo : tx.To = none)
    (hb : b.transactions = tx :: rest) :
    scanTxs isFlashbotsTx b (tx :: rest) history = .panicked ∧
    checkBlock isFlashbotsTx b s = none := by
  have hscan : scanTxs isFlashbotsTx b (tx :: rest) history = .panicked := by
    simp [scanTxs, hr, hgas, hdata, hst, horacle, hTo]
  refine ⟨hscan, ?_⟩
  unfold checkBlock
  rw [hb]
  simp [scanTxs, hr, hgas, hdata, hst, horacle, hTo]

def oracleTrue : Nat → Tx → Option Bool := fun _ _ => some true

def txCreate : Tx := ⟨7, 12, none, 0, [1]⟩

def blockCreate : BlockWithTxReceipts := ⟨9, [txCreate], [(7, ⟨0⟩)]⟩

theorem nil_recipient_dereference_panics_witness :
    blockCreate.txReceipts.lookup txCreate.hash = some ⟨0⟩ ∧
    txCreate.gasPrice = 0 ∧ txCreate.data.length > 0 ∧
    (Receipt.mk 0).status ≠ 1 ∧
    oracleTrue blockCreate.number txCreate = some true ∧
    txCreate.To = none ∧
    (scanTxs oracleTrue blockCreate [txCreate] [] = .panicked ∧
      checkBlock oracleTrue blockCreate initialWatchState = none) :=
  ⟨by decide, by decide, by decide, by decide, by decide, by decide,
   nil_recipient_dereference_panics oracleTrue blockCreate txCreate [] []
     ⟨0⟩ true initialWatchState (by decide) (by decide) (by decide)
     (by decide) (by decide) (by decide) (by decide)⟩

/-- C5: when the bundle-membership query fails on a failing zero-fee
transaction, the transaction loop stops with the history as accumulated
before that transaction — no record for it, no later transaction of the
block examined (the result is the same for *every* suffix `rest`) — and
a block whose scan aborts this way leaves the sweep of the remaining
backlog entries to proceed unchanged: the failure is confined to the
remainder of that block. -/
theorem oracle_error_confines_to_block
    (isFlashbotsTx : Nat → Tx → Option Bool) (b : BlockWithTxReceipts)
    (tx : Tx) (r : Receipt)
    (hr : b.txReceipts.lookup tx.hash = some r)
    (hgas : tx.gasPrice = 0) (hdata : tx.data.length > 0)
    (hst : r.status ≠ 1)
    (horacle : isFlashbotsTx b.number tx = none) :
    (∀ rest history,
      scanTxs isFlashbotsTx b (tx :: rest) history = .aborted history) ∧
    (∀ latest height entries (s : WatchState) h',
      height ≤ latest →
      scanTxs isFlashbotsTx b b.transactions s.failedTxHistory = .aborted h' →
      sweep isFlashbotsTx latest ((height, b) :: entries) s =
        sweep isFlashbotsTx latest entries ⟨s.blockBacklog, h'⟩) := by
  constructor
  · intro rest history
    simp [scanTxs, hr, hgas, hdata, hst, horacle]
  · intro latest height entries s h' hle hscan
    simp [sweep, hle, checkBlock, hscan]

def txRecipient : Tx := ⟨21, 31, some 41, 0, [2]⟩

def blockRecipient : BlockWithTxReceipts := ⟨11, [txRecipient], [(21, ⟨0⟩)]⟩

def txOracle : Nat → Tx → Option Bool := fun n tx => some (n = 11 ∧ tx.hash = 21)

/-- C2 (counterexample): a block with exactly one transaction that has a
receipt, a zero gas price, a non-empty payload and a failing receipt,
whose bundle-membership query succeeds, on which `checkBlock`
nevertheless produces no record: the transaction is a contract creation
(`To` is nil), so `checkBlock` panics instead of recording it. -/
theorem checkBlock_nil_recipient_refutes_single_record :
    blockCreate.transactions = [txCreate] ∧
    blockCreate.txReceipts.lookup txCreate.hash = some ⟨0⟩ ∧
    txCreate.gasPrice = 0 ∧ txCreate.data.length > 0 ∧
    (Receipt.mk 0).status ≠ 1 ∧
    oracleTrue blockCreate.number txCreate = some true ∧
    checkBlock oracleTrue blockCreate ⟨[(9, blockCreate)], []⟩ = none := by
  decide

/-- C2 (amended): for a block with exactly one transaction that has a
receipt, a zero gas price, a non-empty payload, a failing receipt *and a
non-nil recipient*, when the bundle-membership query succeeds with
answer `a`, `checkBlock` appends exactly one record, whose `Block` field
is the block's height and whose `IsFlashbots` field is `a` (and removes
the block's own height from the backlog). -/
theorem checkBlock_single_failed_tx_record
    (isFlashbotsTx : Nat → Tx → Option Bool) (b : BlockWithTxReceipts)
    (tx : Tx) (r : Receipt) (a : Bool) (toAddr : Nat) (s : WatchState)
    (hb : b.transactions = [tx])
    (hr : b.txReceipts.lookup tx.hash = some r)
    (hgas : tx.gasPrice = 0) (hdata : tx.data.length > 0)
    (hst : r.status ≠ 1)
    (hTo : tx.To = some toAddr)
    (horacle : isFlashbotsTx b.number tx = some a) :
    checkBlock isFlashbotsTx b s =
      some ⟨backlogRemove b.number s.blockBacklog,
            appendFailedTx s.failedTxHistory
              ⟨tx.hash, tx.sender, toAddr, b.number, a⟩⟩ := by
  unfold checkBlock
  rw [hb]
  simp [scanTxs, hr, hgas, hdata, hst, horacle, hTo]

theorem checkBlock_single_failed_tx_record_witness :
    blockRecipient.transactions = [txRecipient] ∧
    blockRecipient.txReceipts.lookup txRecipient.hash = some ⟨0⟩ ∧
    txRecipient.gasPrice = 0 ∧ txRecipient.data.length > 0 ∧
    (Receipt.mk 0).status ≠ 1 ∧
    txRecipient.To = some 41 ∧
    txOracle blockRecipient.number txRecipient = some true ∧
    checkBlock txOracle blockRecipient initialWatchState =
      some ⟨backlogRemove blockRecipient.number initialWatchState.blockBacklog,
            appendFailedTx initialWatchState.failedTxHistory
              ⟨txRecipient.hash, txRecipient.sender, 41,
               blockRecipient.number, true⟩⟩ :=
  ⟨by decide, by decide, by decide, by decide, by decide, by decide, by decide,
   checkBlock_single_failed_tx_record txOracle blockRecipient txRecipient
     ⟨0⟩ true 41 initialWatchState (by decide) (by decide) (by decide)
     (by decide) (by decide) (by decide) (by decide)⟩

def oracleErr : Nat → Tx → Option Bool := fun _ _ => none

theorem oracle_error_confines_to_block_witness :
    blockRecipient.txReceipts.lookup txRecipient.hash = some ⟨0⟩ ∧
    txRecipient.gasPrice = 0 ∧ txRecipient.data.length > 0 ∧
    (Receipt.mk 0).status ≠ 1 ∧
    oracleErr blockRecipient.number txRecipient = none ∧
    scanTxs oracleErr blockRecipient [txRecipient] [] = .aborted [] ∧
    sweep oracleErr 11 [(11, blockRecipient)] ⟨[(11, blockRecipient)], []⟩ =
      sweep oracleErr 11 [] ⟨[(11, blockRecipient)], []⟩ :=
  ⟨by decide, by decide, by decide, by decide, by decide,
   (oracle_error_confines_to_block oracleErr blockRecipient txRecipient ⟨0⟩
     (by decide) (by decide) (by decide) (by decide) (by decide)).1 [] [],
   (oracle_error_confines_to_block oracleErr blockRecipient txRecipient ⟨0⟩
     (by decide) (by decide) (by decide) (by decide) (by decide)).2
     11 11 [] ⟨[(11, blockRecipient)], []⟩ [] (by decide) (by decide)⟩

theorem backlogKeys_insert_of_any (h : Nat) (b : BlockWithTxReceipts)
    (m : List (Nat × BlockWithTxReceipts))
    (hm : m.any (fun p => p.1 = h) = true) :
    backlogKeys (backlogInsert h b m) = backlogKeys m := by
  unfold backlogInsert backlogKeys
  rw [if_pos hm, List.map_map]
  apply List.map_congr_left
  intro p _
  by_cases hph : p.1 = h
  · simp [hph]
  · simp [hph]

theorem backlogKeys_insert_of_not_any (h : Nat) (b : BlockWithTxReceipts)
    (m : List (Nat × BlockWithTxReceipts))
    (hm : m.any (fun p => p.1 = h) = false) :
    backlogKeys (backlogInsert h b m) = backlogKeys m ++ [h] := by
  unfold backlogInsert backlogKeys
  rw [if_neg (by simp [hm])]
  simp

theorem mem_backlogKeys_insert (h : Nat) (b : BlockWithTxReceipts)
    (m : List (Nat × BlockWithTxReceipts)) (k : Nat)
    (hk : k ∈ backlogKeys m) :
    k ∈ backlogKeys (backlogInsert h b m) := by
  by_cases hm : m.any (fun p => p.1 = h) = true
  · rw [backlogKeys_insert_of_any h b m hm]; exact hk
  · rw [backlogKeys_insert_of_not_any h b m (by
      revert hm; cases m.any (fun p => p.1 = h) <;> simp)]
    exact List.mem_append_left _ hk

theorem wfBacklog_backlogInsert (h : Nat) (b : BlockWithTxReceipts)
    (m : List (Nat × BlockWithTxReceipts))
    (hwf : wfBacklog m) (hb : b.number = h) :
    wfBacklog (backlogInsert h b m) := by
  by_cases hm : m.any (fun p => p.1 = h) = true
  · constructor
    · rw [backlogKeys_insert_of_any h b m hm]; exact hwf.1
    · intro p hp
      unfold backlogInsert at hp
      rw [if_pos hm] at hp
      rcases List.mem_map.mp hp with ⟨q, hq, rfl⟩
      by_cases hqh : q.1 = h
      · simp [hqh, hb]
      · simpa [hqh] using hwf.2 q hq
  · have hm' : m.any (fun p => p.1 = h) = false := by
      revert hm; cases m.any (fun p => p.1 = h) <;> simp
    constructor
    · rw [backlogKeys_insert_of_not_any h b m hm']
      have hnotmem : h ∉ backlogKeys m := by
        intro hmem
        rcases List.mem_map.mp hmem with ⟨q, hq, hq1⟩
        have := List.any_eq_false.mp hm' q hq
        simp [hq1] at this
      simpa [List.nodup_append] using ⟨hwf.1, hnotmem⟩
    · intro p hp
      unfold backlogInsert at hp
      rw [if_neg (by simp [hm'])] at hp
      rcases List.mem_append.mp hp with hp | hp
      · exact hwf.2 p hp
      · simp at hp
        subst hp
        exact hb

theorem mem_backlogKeys_remove (h : Nat)
    (m : List (Nat × BlockWithTxReceipts)) (k : Nat) :
    k ∈ backlogKeys (backlogRemove h m) ↔ k ∈ backlogKeys m ∧ k ≠ h := by
  unfold backlogRemove backlogKeys
  simp only [List.mem_map, List.mem_filter, decide_not, Bool.not_eq_eq_eq_not,
    Bool.not_true, decide_eq_false_iff_not]
  constructor
  · rintro ⟨p, ⟨hpm, hph⟩, rfl⟩
    exact ⟨⟨p, hpm, rfl⟩, hph⟩
  · rintro ⟨⟨p, hpm, rfl⟩, hph⟩
    exact ⟨p, ⟨hpm, hph⟩, rfl⟩

theorem wfBacklog_backlogRemove (h : Nat)
    (m : List (Nat × BlockWithTxReceipts)) (hwf : wfBacklog m) :
    wfBacklog (backlogRemove h m) := by
  constructor
  · exact ((List.filter_sublist m).map Prod.fst).nodup hwf.1
  · intro p hp
    exact hwf.2 p (List.mem_of_mem_filter hp)

theorem checkBlock_blockBacklog (isFlashbotsTx : Nat → Tx → Option Bool)
    (b : BlockWithTxReceipts) (s s' : WatchState)
    (h : checkBlock isFlashbotsTx b s = some s') :
    s'.blockBacklog = s.blockBacklog ∨
      s'.blockBacklog = backlogRemove b.number s.blockBacklog := by
  unfold checkBlock at h
  cases hscan : scanTxs isFlashbotsTx b b.transactions s.failedTxHistory <;>
    rw [hscan] at h
  case completed hist =>
    right
    cases h
    rfl
  case aborted hist =>
    left
    cases h
    rfl
  case panicked => cases h

theorem sweep_removal_le (isFlashbotsTx : Nat → Tx → Option Bool) (latest : Nat) :
    ∀ (entries : List (Nat × BlockWithTxReceipts)) (s s' : WatchState),
      wfBacklog s.blockBacklog →
      (∀ p ∈ entries, p.2.number = p.1) →
      sweep isFlashbotsTx latest entries s = some s' →
      wfBacklog s'.blockBacklog ∧
      ∀ k, k ∈ backlogKeys s.blockBacklog →
        k ∉ backlogKeys s'.blockBacklog → k ≤ latest := by
  intro entries
  induction entries with
  | nil =>
    intro s s' hwf _ hrun
    cases hrun
    exact ⟨hwf, fun k hk hk' => absurd hk hk'⟩
  | cons e rest ih =>
    rcases e with ⟨height, backlogBlock⟩
    intro s s' hwf hcons hrun
    have hnum : backlogBlock.number = height := hcons _ (List.mem_cons_self _ _)
    have hrest : ∀ p ∈ rest, p.2.number = p.1 :=
      fun p hp => hcons p (List.mem_cons_of_mem _ hp)
    unfold sweep at hrun
    by_cases hle : height ≤ latest
    · rw [if_pos hle] at hrun
      cases hcb : checkBlock isFlashbotsTx backlogBlock s with
      | none => rw [hcb] at hrun; cases hrun
      | some s₁ =>
        rw [hcb] at hrun
        have hbk := checkBlock_blockBacklog isFlashbotsTx backlogBlock s s₁ hcb
        have hwf₁ : wfBacklog s₁.blockBacklog := by
          rcases hbk with hbk | hbk <;> rw [hbk]
          · exact hwf
          · exact wfBacklog_backlogRemove _ _ hwf
        rcases ih s₁ s' hwf₁ hrest hrun with ⟨hwf', hrem⟩
        refine ⟨hwf', fun k hk hk' => ?_⟩
        by_cases hk₁ : k ∈ backlogKeys s₁.blockBacklog
        · exact hrem k hk₁ hk'
        · rcases hbk with hbk | hbk
          · rw [hbk] at hk₁; exact absurd hk hk₁
          · rw [hbk] at hk₁
            have : ¬(k ∈ backlogKeys s.blockBacklog ∧ k ≠ backlogBlock.number) :=
              fun hc => hk₁ ((mem_backlogKeys_remove _ _ _).mpr hc)
            have hkeq : k = backlogBlock.number := by
              by_contra hne
              exact this ⟨hk, hne⟩
            rw [hkeq, hnum]
            exact hle
    · rw [if_neg hle] at hrun
      exact ih s s' hwf hrest hrun

/-- C3: in live mode a pending height has a single backlog entry
(`wfBacklog` is preserved by every step, so a height is never pending
twice and its removal is a single event), and whenever a step of the
`watch` loop removes a height `k` from `BlockBacklog`, that step's
flashbots query succeeded and reported `LatestBlockNumber ≥ k`: no step
removes a height whose finality has not been confirmed. -/
theorem backlog_removal_requires_confirmation
    (e : HeadEvent) (s s' : WatchState)
    (hwf : wfBacklog s.blockBacklog)
    (hfetch : e.block.number = e.header)
    (hstep : watchStep e s = some s') :
    wfBacklog s'.blockBacklog ∧
    ∀ k, k ∈ backlogKeys (backlogInsert e.header e.block s.blockBacklog) →
      k ∉ backlogKeys s'.blockBacklog →
      ∃ latest, e.latestBlockNumber = some latest ∧ k ≤ latest := by
  have hwf1 : wfBacklog (backlogInsert e.header e.block s.blockBacklog) :=
    wfBacklog_backlogInsert e.header e.block s.blockBacklog hwf hfetch
  unfold watchStep at hstep
  cases hl : e.latestBlockNumber <;> rw [hl] at hstep
  case none =>
    cases hstep
    exact ⟨hwf1, fun k hk hk' => absurd hk hk'⟩
  case some latest =>
    rcases sweep_removal_le e.isFlashbotsTx latest
        (backlogInsert e.header e.block s.blockBacklog)
        ⟨backlogInsert e.header e.block s.blockBacklog, s.failedTxHistory⟩
        s' hwf1 hwf1.2 hstep with ⟨hwf', hrem⟩
    exact ⟨hwf', fun k hk hk' => ⟨latest, rfl, hrem k hk hk'⟩⟩

def blockThree : BlockWithTxReceipts := ⟨3, [], []⟩

def blockSeven : BlockWithTxReceipts := ⟨7, [], []⟩

def eventSeven : HeadEvent := ⟨7, blockSeven, some 7, oracleFalse⟩

def watchWitnessStart : WatchState := ⟨[(3, blockThree)], []⟩

theorem backlog_removal_requires_confirmation_witness :
    wfBacklog (WatchState.mk [] []).blockBacklog ∧
    (∃ latest, eventSeven.latestBlockNumber = some latest ∧ 3 ≤ latest) :=
  ⟨(backlog_removal_requires_confirmation eventSeven watchWitnessStart ⟨[], []⟩
      (by decide) (by decide) (by decide)).1,
   (backlog_removal_requires_confirmation eventSeven watchWitnessStart ⟨[], []⟩
      (by decide) (by decide) (by decide)).2 3 (by decide) (by decide)⟩

def blockFive : BlockWithTxReceipts := ⟨5, [], []⟩

def eventOracleDown : HeadEvent := ⟨5, blockFive, none, oracleFalse⟩

/-- C4 (counterexample): a head event whose flashbots query fails does
*not* leave `BlockBacklog` unchanged over the whole cycle: the cycle has
already inserted the newly fetched head block (line 125 runs before the
query of line 128), so the backlog after the cycle differs from the
backlog before it. -/
theorem backlog_changed_on_oracle_failure :
    eventOracleDown.latestBlockNumber = none ∧
    watchStep eventOracleDown initialWatchState = some ⟨[(5, blockFive)], []⟩ ∧
    ([(5, blockFive)] : List (Nat × BlockWithTxReceipts)) ≠
      initialWatchState.blockBacklog :=
  ⟨rfl, rfl, by decide⟩

/-- C4 (amended): when the flashbots `latestProcessedHeight` query of a
head event fails, the cycle is non-fatal, removes nothing and scans
nothing: the state afterwards is exactly the prior state with the newly
fetched head block inserted into the backlog and the history untouched,
and every previously pending height is still pending, to be swept on a
later head event. -/
theorem oracle_failure_no_removal_no_scan (e : HeadEvent) (s : WatchState)
    (herr : e.latestBlockNumber = none) :
    watchStep e s =
      some ⟨backlogInsert e.header e.block s.blockBacklog, s.failedTxHistory⟩ ∧
    ∀ k, k ∈ backlogKeys s.blockBacklog →
      k ∈ backlogKeys (backlogInsert e.header e.block s.blockBacklog) := by
  constructor
  · simp [watchStep, herr]
  · intro k hk
    exact mem_backlogKeys_insert e.header e.block s.blockBacklog k hk

def blockTwo : BlockWithTxReceipts := ⟨2, [], []⟩

def pendingTwoState : WatchState := ⟨[(2, blockTwo)], []⟩

theorem oracle_failure_no_removal_no_scan_witness :
    watchStep eventOracleDown pendingTwoState =
      some ⟨backlogInsert eventOracleDown.header eventOracleDown.block
              pendingTwoState.blockBacklog,
            pendingTwoState.failedTxHistory⟩ ∧
    2 ∈ backlogKeys (backlogInsert eventOracleDown.header eventOracleDown.block
          pendingTwoState.blockBacklog) :=
  ⟨(oracle_failure_no_removal_no_scan eventOracleDown pendingTwoState rfl).1,
   (oracle_failure_no_removal_no_scan eventOracleDown pendingTwoState rfl).2
     2 (by decide)⟩

def txAlpha : Tx := ⟨1, 10, some 20, 0, [0]⟩

def txBeta : Tx := ⟨2, 11, some 21, 0, [0]⟩

def blockDup : BlockWithTxReceipts := ⟨5, [txAlpha, txBeta], [(1, ⟨0⟩), (2, ⟨0⟩)]⟩

def blockNext : BlockWithTxReceipts := ⟨6, [], []⟩

def oracleFlaky : Nat → Tx → Option Bool :=
  fun _ tx => if tx.hash = 1 then some false else none

def eventDupOne : HeadEvent := ⟨5, blockDup, some 5, oracleFlaky⟩

def eventDupTwo : HeadEvent := ⟨6, blockNext, some 6, oracleFalse⟩

def recordAlpha : FailedTx := ⟨1, 10, 20, 5, false⟩

def recordBeta : FailedTx := ⟨2, 11, 21, 5, false⟩

/-- C10: a concrete live-mode run exhibiting the duplication.  Block 5
holds two failing zero-fee transactions; during the first head event the
bundle query succeeds for the first one (recorded) and fails for the
second, so `checkBlock` returns early, skipping the backlog deletion —
block 5 stays pending with `[recordAlpha]` already in the history.  The
next head event re-sweeps block 5 from its first transaction: the
already-recorded transaction is appended a second time, and the final
history holds `recordAlpha` twice. -/
theorem duplicate_records_after_oracle_error :
    watchStep eventDupOne initialWatchState =
      some ⟨[(5, blockDup)], [recordAlpha]⟩ ∧
    watchRun [eventDupOne, eventDupTwo] initialWatchState =
      some ⟨[], [recordAlpha, recordAlpha, recordBeta]⟩ ∧
    List.count recordAlpha [recordAlpha, recordAlpha, recordBeta] = 2 :=
  ⟨rfl, rfl, by decide⟩

theorem consumeBlocks_sum (isFlashbotsTx : Nat → Tx → Option Bool) :
    ∀ (l : List BlockWithTxReceipts) (s : WatchState) (k : Nat)
      (s' : WatchState) (n : Nat),
      consumeBlocks isFlashbotsTx l s k = some (s', n) →
      n = k + (l.map (fun b => b.transactions.length)).sum := by
  intro l
  induction l with
  | nil =>
    intro s k s' n h
    cases h
    simp
  | cons b rest ih =>
    intro s k s' n h
    unfold consumeBlocks at h
    cases hcb : checkBlock isFlashbotsTx b s with
    | none => rw [hcb] at h; cases h
    | some s₁ =>
      rw [hcb] at h
      have hrec := ih s₁ (k + b.transactions.length) s' n h
      simp only [List.map_cons, List.sum_cons]
      omega

theorem rangeBlocks_map_number (fetch : Nat → BlockWithTxReceipts)
    (startHeight endHeight : Nat) (hfetch : ∀ h, (fetch h).number = h) :
    (rangeBlocks fetch startHeight endHeight).map (fun b => b.number) =
      List.range' startHeight (endHeight + 1 - startHeight) := by
  unfold rangeBlocks
  rw [List.map_map]
  have : (fun b => BlockWithTxReceipts.number b) ∘ fetch = id := by
    funext x
    simp [hfetch x]
  rw [this, List.map_id]

/-- Blocks the producer still has to send, read off the main thread's
program counter. -/
def pendingOf : MainPC → List BlockWithTxReceipts
  | .producing pending => pending
  | .closing => []
  | .locking => []
  | .returned => []

/-- Whether `close(blockChan)` has already run, read off the main
thread's program counter. -/
def mainChanClosed : MainPC → Bool
  | .producing _ => false
  | .closing => false
  | .locking => true
  | .returned => true

/-- Inductive invariant of the `checkBlockRange` interleaving system:
the counter equals the consumed total; consumed + queued + pending
blocks always make up the whole delivery in order; the closed flag
tracks the main thread's progress; the mutex is held exactly by a
running consumer or a returned caller (never both); a finished consumer
has drained the closed queue; and if the caller returned after the
consumer finished, the value it reported is the final counter. -/
def rangeScanInv (blocks : List BlockWithTxReceipts) (s : RangeScanState) : Prop :=
  s.numTx = (s.consumed.map (fun b => b.transactions.length)).sum ∧
  s.consumed ++ s.blockChan ++ pendingOf s.mainPC = blocks ∧
  s.chanClosed = mainChanClosed s.mainPC ∧
  (s.mutexLocked = true ↔ (s.consPC = .running ∨ s.mainPC = .returned)) ∧
  ¬(s.consPC = .running ∧ s.mainPC = .returned) ∧
  (s.consPC = .finished → s.blockChan = [] ∧ s.chanClosed = true) ∧
  (s.mainPC = .returned → s.consPC = .finished → s.returnedNumTx = some s.numTx)

theorem rangeScanInv_initRangeScan (blocks : List BlockWithTxReceipts) :
    rangeScanInv blocks (initRangeScan blocks) := by
  unfold rangeScanInv initRangeScan
  simp [pendingOf, mainChanClosed]

theorem rangeScanInv_step (blocks : List BlockWithTxReceipts)
    (s : RangeScanState) (t : RThread) (h : rangeScanInv blocks s) :
    rangeScanInv blocks (rangeScanStep s t) := by
  obtain ⟨chan, closed, mtx, mpc, cpc, n, cons, ret⟩ := s
  obtain ⟨h1, h2, h3, h4, h7, h5, h6⟩ := h
  simp only at h1 h2 h3 h4 h7 h5 h6
  cases t with
  | main =>
    cases mpc with
    | producing pending =>
      cases pending with
      | nil =>
        refine ⟨?_, ?_, ?_, ?_, ?_, ?_, ?_⟩ <;>
          simp_all [rangeScanStep, pendingOf, mainChanClosed]
      | cons b rest =>
        by_cases hlen : chan.length < 100
        · have hcf : cpc ≠ ConsPC.finished := by
            intro hf
            rw [(h5 hf).2] at h3
            simp [mainChanClosed] at h3
          refine ⟨?_, ?_, ?_, ?_, ?_, ?_, ?_⟩ <;>
            simp_all [rangeScanStep, pendingOf, mainChanClosed]
        · have hstep : rangeScanStep
              ⟨chan, closed, mtx, .producing (b :: rest), cpc, n, cons, ret⟩
              RThread.main =
              ⟨chan, closed, mtx, .producing (b :: rest), cpc, n, cons, ret⟩ := by
            simp only [rangeScanStep]
            rw [if_neg hlen]
          rw [hstep]
          exact ⟨h1, h2, h3, h4, h7, h5, h6⟩
    | closing =>
      refine ⟨?_, ?_, ?_, ?_, ?_, ?_, ?_⟩ <;>
        simp_all [rangeScanStep, pendingOf, mainChanClosed]
    | locking =>
      by_cases hm : mtx = true
      · refine ⟨?_, ?_, ?_, ?_, ?_, ?_, ?_⟩ <;>
          simp_all [rangeScanStep, pendingOf, mainChanClosed]
      · have hcr : cpc ≠ ConsPC.running := by
          intro hr
          exact hm (h4.mpr (Or.inl hr))
        refine ⟨?_, ?_, ?_, ?_, ?_, ?_, ?_⟩ <;>
          simp_all [rangeScanStep, pendingOf, mainChanClosed]
    | returned =>
      refine ⟨?_, ?_, ?_, ?_, ?_, ?_, ?_⟩ <;>
        simp_all [rangeScanStep, pendingOf, mainChanClosed]
  | consumer =>
    cases cpc with
    | start =>
      by_cases hm : mtx = true
      · refine ⟨?_, ?_, ?_, ?_, ?_, ?_, ?_⟩ <;>
          simp_all [rangeScanStep, pendingOf, mainChanClosed]
      · have hmr : mpc ≠ MainPC.returned := by
          intro hr
          exact hm (h4.mpr (Or.inr hr))
        refine ⟨?_, ?_, ?_, ?_, ?_, ?_, ?_⟩ <;>
          simp_all [rangeScanStep, pendingOf, mainChanClosed]
    | running =>
      have hmr : mpc ≠ MainPC.returned := fun hr => h7 ⟨rfl, hr⟩
      cases chan with
      | nil =>
        by_cases hcl : closed = true
        · refine ⟨?_, ?_, ?_, ?_, ?_, ?_, ?_⟩ <;>
            simp_all [rangeScanStep, pendingOf, mainChanClosed]
        · refine ⟨?_, ?_, ?_, ?_, ?_, ?_, ?_⟩ <;>
            simp_all [rangeScanStep, pendingOf, mainChanClosed]
      | cons b rest =>
        refine ⟨?_, ?_, ?_, ?_, ?_, ?_, ?_⟩ <;>
          simp_all [rangeScanStep, pendingOf, mainChanClosed]
    | finished =>
      refine ⟨?_, ?_, ?_, ?_, ?_, ?_, ?_⟩ <;>
        simp_all [rangeScanStep, pendingOf, mainChanClosed]

theorem rangeScanInv_runSchedule (blocks : List BlockWithTxReceipts)
    (sched : List RThread) : rangeScanInv blocks (runSchedule blocks sched) := by
  unfold runSchedule
  have hfold : ∀ (l : List RThread) (s : RangeScanState),
      rangeScanInv blocks s → rangeScanInv blocks (l.foldl rangeScanStep s) := by
    intro l
    induction l with
    | nil => intro s hs; exact hs
    | cons t rest ih =>
      intro s hs
      exact ih _ (rangeScanInv_step blocks s t hs)
  exact hfold sched _ (rangeScanInv_initRangeScan blocks)

/-- When a run of `checkBlockRange` ends with the caller returned *and*
the consumer goroutine finished, the consumer consumed exactly the
delivered blocks (in delivery order), nothing is left queued, and the
count read by the caller at line 92 is the total over all delivered
blocks. -/
theorem runSchedule_complete (blocks : List BlockWithTxReceipts)
    (sched : List RThread)
    (hmain : (runSchedule blocks sched).mainPC = .returned)
    (hcons : (runSchedule blocks sched).consPC = .finished) :
    (runSchedule blocks sched).consumed = blocks ∧
    (runSchedule blocks sched).blockChan = [] ∧
    (runSchedule blocks sched).returnedNumTx =
      some ((blocks.map (fun b => b.transactions.length)).sum) := by
  obtain ⟨h1, h2, h3, h4, h7, h5, h6⟩ := rangeScanInv_runSchedule blocks sched
  have hchan := (h5 hcons).1
  rw [hmain] at h2
  simp only [pendingOf, List.append_nil, hchan] at h2
  refine ⟨h2, hchan, ?_⟩
  rw [h6 hmain hcons, h1, h2]

/-- C6 (amended): provided the ranged fetcher delivers the blocks of
`[startHeight, endHeight]` exactly once each (its contract; delivery
order unspecified), and for an invocation whose interleaving completes
the barrier handshake — the consumer goroutine finished (it acquired the
mutex and drained the closed queue; otherwise the caller can return
early, see C7) — and whose consumer does not crash on the unguarded
nil-recipient dereference (see C9): the consumer consumed the delivered
blocks exactly, each height's block occurs exactly once among them, the
count the caller reports is the consumer's total, and it equals the sum
over all blocks of the range of their transaction counts. -/
theorem range_scan_exactly_once_and_sum
    (fetch : Nat → BlockWithTxReceipts) (startHeight endHeight : Nat)
    (delivered : List BlockWithTxReceipts)
    (isFlashbotsTx : Nat → Tx → Option Bool) (sched : List RThread)
    (s' : WatchState) (numTx : Nat)
    (hfetch : ∀ h, (fetch h).number = h)
    (hperm : delivered.Perm (rangeBlocks fetch startHeight endHeight))
    (hmain : (runSchedule delivered sched).mainPC = .returned)
    (hcons : (runSchedule delivered sched).consPC = .finished)
    (hrun : consumeBlocks isFlashbotsTx delivered initialWatchState 0 =
      some (s', numTx)) :
    (runSchedule delivered sched).consumed = delivered ∧
    (runSchedule delivered sched).returnedNumTx = some numTx ∧
    (∀ h, startHeight ≤ h → h ≤ endHeight →
      (delivered.map (fun b => b.number)).count h = 1) ∧
    numTx = blockRangeSum fetch startHeight endHeight := by
  obtain ⟨hconsumed, hchan, hret⟩ :=
    runSchedule_complete delivered sched hmain hcons
  have hsum := consumeBlocks_sum isFlashbotsTx delivered initialWatchState
    0 s' numTx hrun
  refine ⟨hconsumed, ?_, ?_, ?_⟩
  · rw [hret, hsum]
    simp
  · intro h h1 h2
    have hmap := hperm.map (fun b => BlockWithTxReceipts.number b)
    rw [List.Perm.count_eq hmap h,
      rangeBlocks_map_number fetch startHeight endHeight hfetch]
    refine List.count_eq_one_of_mem (List.nodup_range' _ _) ?_
    rw [List.mem_range'_1]
    omega
  · have hps := (hperm.map (fun b => b.transactions.length)).sum_eq
    unfold blockRangeSum
    omega

def fetchPlain : Nat → BlockWithTxReceipts :=
  fun h => ⟨h, [⟨h, 0, some 0, 1, []⟩], []⟩

def deliveredPlain : List BlockWithTxReceipts := [fetchPlain 101, fetchPlain 100]

def goodSchedule : List RThread :=
  [.consumer, .main, .main, .main, .main, .consumer, .consumer, .consumer, .main]

theorem range_scan_exactly_once_and_sum_witness :
    (runSchedule deliveredPlain goodSchedule).consumed = deliveredPlain ∧
    (runSchedule deliveredPlain goodSchedule).returnedNumTx = some 2 ∧
    (deliveredPlain.map (fun b => b.number)).count 100 = 1 ∧
    2 = blockRangeSum fetchPlain 100 101 :=
  let T := range_scan_exactly_once_and_sum fetchPlain 100 101 deliveredPlain
    oracleFalse goodSchedule ⟨[], []⟩ 2 (fun h => rfl) (by decide) (by decide)
    (by decide) (by decide)
  ⟨T.1, T.2.1, T.2.2.1 100 (by decide) (by decide), T.2.2.2⟩

def txCreateBatch : Tx := ⟨8, 13, none, 0, [3]⟩

def fetchCrash : Nat → BlockWithTxReceipts :=
  fun h => if h = 100 then ⟨100, [txCreateBatch], [(8, ⟨0⟩)]⟩ else ⟨h, [], []⟩

def fetchBenign : Nat → BlockWithTxReceipts :=
  fun h => ⟨h, [⟨h, h, some h, 1, []⟩], []⟩

def raceSchedule : List RThread := [.main, .main, .main, .main, .main]

/-- C6 (counterexample): the unconditional exactly-once/count claim
fails in two ways.  (i) For the range `[100, 101]` whose block 100
contains a failing zero-fee contract-creation transaction (nil
recipient), the consumer crashes on block 100: the scan never produces a
transaction count and the block of height 101 is never passed through
`checkBlock`.  (ii) Even for a range `[100, 101]` with no crashing
transaction at all (the sequential consumer would happily finish with
count 2), the schedule in which the caller runs to `lock.Lock()` before
the consumer goroutine is ever scheduled returns with a reported count
of 0 and no block consumed. -/
theorem range_scan_crash_or_race_counterexample :
    (rangeBlocks fetchCrash 100 101 =
      [⟨100, [txCreateBatch], [(8, ⟨0⟩)]⟩, ⟨101, [], []⟩] ∧
     consumeBlocks oracleTrue (rangeBlocks fetchCrash 100 101)
       initialWatchState 0 = none) ∧
    (consumeBlocks oracleTrue (rangeBlocks fetchBenign 100 101)
       initialWatchState 0 = some (⟨[], []⟩, 2) ∧
     (runSchedule (rangeBlocks fetchBenign 100 101) raceSchedule).mainPC =
       .returned ∧
     (runSchedule (rangeBlocks fetchBenign 100 101) raceSchedule).returnedNumTx =
       some 0 ∧
     (runSchedule (rangeBlocks fetchBenign 100 101) raceSchedule).consumed = [] ∧
     ((rangeBlocks fetchBenign 100 101).map
       (fun b => b.transactions.length)).sum = 2) :=
  ⟨⟨by decide, by decide⟩, by decide, by decide, by decide, by decide, by decide⟩

def blockBarrier : BlockWithTxReceipts := ⟨100, [⟨5, 6, some 7, 1, []⟩], []⟩

def badSchedule : List RThread := [.main, .main, .main, .main]

/-- C7: the mutex-as-completion-barrier of `checkBlockRange` admits an
interleaving in which the caller is released *before* the consumer has
consumed anything: if the consumer goroutine is not scheduled before the
calling thread reaches `lock.Lock()` (line 88), the mutex is still free,
the caller acquires it immediately after producing and closing the
queue, and `checkBlockRange` returns with `numTx = 0` while the one
delivered block is still sitting unconsumed in the queue — contradicting
the code's own comment `// wait until all blocks have been processed`. -/
theorem completion_barrier_race :
    (runSchedule [blockBarrier] badSchedule).mainPC = .returned ∧
    (runSchedule [blockBarrier] badSchedule).returnedNumTx = some 0 ∧
    (runSchedule [blockBarrier] badSchedule).consumed = [] ∧
    (runSchedule [blockBarrier] badSchedule).blockChan = [blockBarrier] ∧
    blockBarrier.transactions.length = 1 := by
  decide
